import Mathlib

/-!
Shallow embedding of the feed-ingestion-and-fallback pipeline of
`src/agents/opposition_agent.py` (functions `fetch_feed` and
`analyze_government_news`), together with theorems settling the
specification claims about it.

External effects are modelled as explicit parameters:
* the network is an oracle `attempt : Nat → AttemptOutcome` (outcome of
  the i-th HTTP GET inside `fetch_feed`), or, one level up, an oracle
  `fetchOf : String → Option Feed` giving the result of `fetch_feed url`
  for each source url;
* the on-disk cache file `cache/news_cache.json` is a `CacheFile` value
  threaded in and handed back out (`RunResult.cacheAfter` is the content
  written by `json.dump`);
* the Gemini client is an oracle `gen : String → Except String (Option String)`:
  `.ok t` models a successful `generate_content` call whose `resp.text`
  attribute is `t` (`none` when the attribute is absent or `None`),
  `.error e` models the call raising an exception rendered as `e`;
* `datetime.datetime.now().isoformat()` is the parameter `now`.
-/

set_option autoImplicit false

namespace OppositionKenya

/-- A feed entry as consumed by `analyze_government_news`: the four keys it
reads via `entry.get`, each possibly absent. -/
structure Entry where
  title : Option String
  link : Option String
  summary : Option String
  description : Option String
  deriving DecidableEq, Repr

/-- The result of `feedparser.parse`: only the `entries` attribute is read. -/
structure Feed where
  entries : List Entry
  deriving DecidableEq, Repr

/-- An article record as built at lines 75-79 of `opposition_agent.py`. -/
structure Article where
  title : String
  link : String
  summary : String
  deriving DecidableEq, Repr

/-- One element of the `analyses` list (lines 128-132 / 134-138). -/
structure AnalysisItem where
  title : String
  analysis : String
  source : String
  deriving DecidableEq, Repr

/-- The dict returned by `analyze_government_news` (lines 140-144). -/
structure ToolResponse where
  status : String
  timestamp : String
  analyses : List AnalysisItem
  deriving DecidableEq, Repr

/-- State of the file `cache/news_cache.json`: absent (so
`NEWS_CACHE_FILE.exists()` is false), a well-formed JSON array of articles,
or content on which `json.load` raises `json.JSONDecodeError`. -/
inductive CacheFile where
  | absent
  | valid (batch : List Article)
  | corrupt
  deriving DecidableEq, Repr

/-- A Python exception escaping the modelled code. -/
inductive PyErr where
  | jsonDecodeError
  deriving DecidableEq, Repr

/-- Observable outcome of one call to `analyze_government_news`: the article
batch it settled on, the cache file content it wrote, and the returned dict. -/
structure RunResult where
  batch : List Article
  cacheAfter : CacheFile
  response : ToolResponse
  deriving DecidableEq, Repr

/-- Outcome of one `requests.get` inside `fetch_feed`: a response with a
status code (whose body, when the status is 200, is handed to
`feedparser.parse`, modelled here by the parsed `Feed` it yields), or an
`SSLError`, or any other exception. -/
inductive AttemptOutcome where
  | response (status : Nat) (body : Feed)
  | sslError
  | exn
  deriving DecidableEq, Repr

/-- The loop body of `fetch_feed` starting at attempt index `i` with the
given number of remaining loop iterations. Returns the result, the total
time spent in `time.sleep` (in multiples of one second), and the number of
attempts made. Each failed attempt executes `time.sleep(delay)` before the
next iteration (and also after the last one, as in the source). -/
def fetchFrom (attempt : Nat → AttemptOutcome) (delay : Nat) :
    Nat → Nat → Option Feed × Nat × Nat
  | _, 0 => (none, 0, 0)
  | i, n + 1 =>
    match attempt i with
    | .response status body =>
      if status = 200 then
        (some body, 0, 1)
      else
        let r := fetchFrom attempt delay (i + 1) n
        (r.1, delay + r.2.1, r.2.2 + 1)
    | _ =>
      let r := fetchFrom attempt delay (i + 1) n
      (r.1, delay + r.2.1, r.2.2 + 1)

/-- `fetch_feed(url, retries=3, delay=5)` with the network abstracted as
`attempt`. Mirrors `for attempt in range(retries): ...` returning
`feedparser.parse(response.content)` on status 200 and `None` after
exhausting the loop. -/
def fetch_feed (attempt : Nat → AttemptOutcome) (retries : Nat := 3)
    (delay : Nat := 5) : Option Feed × Nat × Nat :=
  fetchFrom attempt delay 0 retries

/-- Whether an attempt outcome is an HTTP 200 response. -/
def AttemptOutcome.succeeds : AttemptOutcome → Bool
  | .response status _ => status == 200
  | _ => false

/-- The hardcoded source list (lines 59-68). -/
def feeds : List String :=
  ["https://www.standardmedia.co.ke/kenya/rss.xml",
   "https://rss.nation.africa/rss.xml",
   "https://www.theeastafrican.co.ke/rss.xml",
   "https://www.kbc.co.ke/feed/",
   "https://www.msn.com/en-xl/feeds/news",
   "https://allafrica.com/tools/headlines/rdf/kenya/headlines.rdf",
   "https://www.bbc.co.uk/feeds/rss/africa.xml",
   "https://www.aljazeera.com/xml/rss/all.xml"]

/-- Article built from one entry (lines 75-79):
`entry.get("title", "Untitled")`, `entry.get("link", "No link")`,
`entry.get("summary", entry.get("description", "No summary available."))`. -/
def mkArticle (entry : Entry) : Article :=
  { title := entry.title.getD "Untitled",
    link := entry.link.getD "No link",
    summary := entry.summary.getD (entry.description.getD "No summary available.") }

/-- The fetch-and-collect loop over `feeds` (lines 70-79): for each url,
call `fetch_feed`; when the result is truthy and has a truthy `entries`
list, append the articles built from the first five entries. -/
def collectLoop (fetchOf : String → Option Feed) (acc : List Article) :
    List String → List Article
  | [] => acc
  | url :: rest =>
    match fetchOf url with
    | some feed =>
      if feed.entries.isEmpty then
        collectLoop fetchOf acc rest
      else
        collectLoop fetchOf (acc ++ (feed.entries.take 5).map mkArticle) rest
    | none => collectLoop fetchOf acc rest

/-- The articles gathered from live feeds before the total truncation. -/
def collectLive (fetchOf : String → Option Feed) : List Article :=
  collectLoop fetchOf [] feeds

/-- The hardcoded fallback article (lines 90-97). -/
def fallbackArticle : Article :=
  { title := "Government launches new affordable housing project",
    link := "https://example.com/fallback",
    summary := "The Kenyan government has announced a new affordable housing project aimed at urban youth and low-income families." }

/-- The prompt built for one article (lines 104-121). -/
def promptFor (art : Article) : String :=
  "\nYou are **Opposition AI Kenya**, a civic digital agent helping citizens analyze government actions.\n\nAnalyze this article through 5 lenses:\n\n1️⃣ Checks & Balances – Any misuse of power?\n2️⃣ Critique & Challenge – What risks exist?\n3️⃣ Citizen Impact – Who benefits or suffers?\n4️⃣ Accountability – Are promises or transparency lacking?\n5️⃣ Alternative Proposals – Suggest better realistic actions.\n                                                 \nArticle:\nTitle: "
    ++ art.title
    ++ "\nSummary: " ++ art.summary
    ++ "\nSource: " ++ art.link
    ++ "\n\nBe factual, concise, and aware of the Kenyan context.\n"

/-- `getattr(resp, "text", None) or "⚠️ No analysis generated."`: a missing
or `None` attribute and the empty string are falsy and replaced. -/
def textOrDefault : Option String → String
  | none => "⚠️ No analysis generated."
  | some s => if s = "" then "⚠️ No analysis generated." else s

/-- The body of the analysis loop for one article (lines 123-138): call the
model inside `try`, append a per-article record; an exception becomes
per-item error text instead of aborting. -/
def analyzeOne (gen : String → Except String (Option String))
    (art : Article) : AnalysisItem :=
  match gen (promptFor art) with
  | .ok t =>
    { title := art.title, analysis := textOrDefault t, source := art.link }
  | .error e =>
    { title := art.title, analysis := "⚠️ AI generation error: " ++ e,
      source := art.link }

/-- The analysis accumulation loop (lines 122-138): `analyses = []` then
`analyses.append(...)` per article. -/
def runAnalyses (gen : String → Except String (Option String))
    (articles : List Article) : List AnalysisItem :=
  articles.foldl (fun acc art => acc ++ [analyzeOne gen art]) []

/-- Lines 83-86: `if not articles and NEWS_CACHE_FILE.exists():
articles = json.load(f)`. On a corrupt file `json.load` raises
`json.JSONDecodeError`, which nothing in the function catches. -/
def cacheStep (live : List Article) (cache : CacheFile) :
    Except PyErr (List Article) :=
  if live.isEmpty then
    match cache with
    | .absent => .ok live
    | .valid b => .ok b
    | .corrupt => .error .jsonDecodeError
  else .ok live

/-- Lines 88-97: `if not articles: articles = [ ...fallback... ]`. -/
def withFallback (articles0 : List Article) : List Article :=
  if articles0.isEmpty then [fallbackArticle] else articles0

/-- `analyze_government_news` (lines 58-144): gather live articles, truncate
to 15, on emptiness fall back to the cache file when it exists (a corrupt
file makes `json.load` raise), then to the hardcoded fallback article;
write the batch back to the cache file; analyze each article. -/
def analyze_government_news (fetchOf : String → Option Feed)
    (cache : CacheFile) (gen : String → Except String (Option String))
    (now : String) : Except PyErr RunResult :=
  match cacheStep ((collectLive fetchOf).take 15) cache with
  | .error e => .error e
  | .ok articles0 =>
    let articles := withFallback articles0
    .ok { batch := articles,
          cacheAfter := .valid articles,
          response := { status := "success", timestamp := now,
                        analyses := runAnalyses gen articles } }

/-- The entry lists of the sources whose `fetch_feed` call succeeded, in
source-declaration order. -/
def sourceEntries (fetchOf : String → Option Feed) : List (List Entry) :=
  (feeds.filterMap fetchOf).map Feed.entries

/-! ### Helper lemmas -/

theorem collectLoop_eq (fetchOf : String → Option Feed) (urls : List String) :
    ∀ acc : List Article,
      collectLoop fetchOf acc urls =
        acc ++ ((urls.filterMap fetchOf).map Feed.entries).flatMap
          (fun es => (es.take 5).map mkArticle) := by
  induction urls with
  | nil => intro acc; simp [collectLoop]
  | cons url rest ih =>
    intro acc
    cases hf : fetchOf url with
    | none => simp [collectLoop, hf, ih]
    | some feed =>
      by_cases he : feed.entries.isEmpty
      · have hnil : feed.entries = [] := List.isEmpty_iff.mp he
        simp [collectLoop, hf, he, ih, hnil]
      · simp [collectLoop, hf, he, ih]

theorem collectLive_eq (fetchOf : String → Option Feed) :
    collectLive fetchOf =
      (sourceEntries fetchOf).flatMap (fun es => (es.take 5).map mkArticle) := by
  simp [collectLive, sourceEntries, collectLoop_eq]

theorem collectLive_length (fetchOf : String → Option Feed) :
    (collectLive fetchOf).length =
      ((sourceEntries fetchOf).map (fun es => min 5 es.length)).sum := by
  simp [collectLive_eq, List.length_flatMap, Function.comp_def,
    List.length_take, List.length_map]

theorem withFallback_ne_nil (l : List Article) : withFallback l ≠ [] := by
  by_cases h : l.isEmpty
  · simp [withFallback, h]
  · simpa [withFallback, h, List.isEmpty_iff] using
      (by simpa [List.isEmpty_iff] using h : l ≠ [])

theorem withFallback_of_ne_nil {l : List Article} (h : l ≠ []) :
    withFallback l = l := by
  have : l.isEmpty = false := by simpa [List.isEmpty_iff] using h
  simp [withFallback, this]

theorem cacheStep_of_ne_nil {live : List Article} (cache : CacheFile)
    (h : live ≠ []) : cacheStep live cache = .ok live := by
  have : live.isEmpty = false := by simpa [List.isEmpty_iff] using h
  simp [cacheStep, this]

theorem runAnalyses_eq_map (gen : String → Except String (Option String))
    (articles : List Article) :
    runAnalyses gen articles = articles.map (analyzeOne gen) := by
  have key : ∀ (l : List Article) (acc : List AnalysisItem),
      l.foldl (fun acc art => acc ++ [analyzeOne gen art]) acc =
        acc ++ l.map (analyzeOne gen) := by
    intro l
    induction l with
    | nil => intro acc; simp
    | cons a t ih => intro acc; simp [ih]
  simpa using key articles []

theorem analyze_ok_shape (fetchOf : String → Option Feed) (cache : CacheFile)
    (gen : String → Except String (Option String)) (now : String)
    (out : RunResult)
    (h : analyze_government_news fetchOf cache gen now = .ok out) :
    ∃ articles0, cacheStep ((collectLive fetchOf).take 15) cache = .ok articles0 ∧
      out = { batch := withFallback articles0,
              cacheAfter := .valid (withFallback articles0),
              response := { status := "success", timestamp := now,
                            analyses := runAnalyses gen (withFallback articles0) } } := by
  unfold analyze_government_news at h
  cases hcs : cacheStep ((collectLive fetchOf).take 15) cache with
  | error e => rw [hcs] at h; exact absurd h (by simp)
  | ok articles0 =>
    rw [hcs] at h
    exact ⟨articles0, rfl, by simpa using h.symm⟩

theorem analyze_of_cacheStep_ok (fetchOf : String → Option Feed)
    (cache : CacheFile) (gen : String → Except String (Option String))
    (now : String) (a : List Article)
    (h : cacheStep ((collectLive fetchOf).take 15) cache = .ok a) :
    analyze_government_news fetchOf cache gen now =
      .ok { batch := withFallback a,
            cacheAfter := .valid (withFallback a),
            response := { status := "success", timestamp := now,
                          analyses := runAnalyses gen (withFallback a) } } := by
  unfold analyze_government_news
  rw [h]

theorem fetchFrom_persistent (attempt : Nat → AttemptOutcome) (delay : Nat) :
    ∀ n i : Nat, (∀ j, j < n → (attempt (i + j)).succeeds = false) →
      fetchFrom attempt delay i n = (none, n * delay, n) := by
  intro n
  induction n with
  | zero => intro i _; simp [fetchFrom]
  | succ m ih =>
    intro i h
    have h0 : (attempt i).succeeds = false := by simpa using h 0 (Nat.succ_pos m)
    have hrest : ∀ j, j < m → (attempt (i + 1 + j)).succeeds = false := by
      intro j hj
      have e : i + 1 + j = i + (j + 1) := by omega
      rw [e]
      exact h (j + 1) (by omega)
    have hrec := ih (i + 1) hrest
    cases ho : attempt i with
    | response status body =>
      have hs : ¬status = 200 := by
        intro hEq
        rw [ho, hEq] at h0
        simp [AttemptOutcome.succeeds] at h0
      simp [fetchFrom, ho, hs, hrec, Nat.succ_mul, Nat.add_comm]
    | sslError => simp [fetchFrom, ho, hrec, Nat.succ_mul, Nat.add_comm]
    | exn => simp [fetchFrom, ho, hrec, Nat.succ_mul, Nat.add_comm]

theorem fetchFrom_first_success (attempt : Nat → AttemptOutcome) (delay : Nat) :
    ∀ n k i : Nat, ∀ body : Feed, k < n →
      (∀ j, j < k → (attempt (i + j)).succeeds = false) →
      attempt (i + k) = .response 200 body →
      fetchFrom attempt delay i n = (some body, k * delay, k + 1) := by
  intro n
  induction n with
  | zero => intro k i body hk _ _; exact absurd hk (Nat.not_lt_zero k)
  | succ m ih =>
    intro k i body hk hfail hsucc
    cases k with
    | zero =>
      have h200 : attempt i = .response 200 body := by simpa using hsucc
      simp [fetchFrom, h200]
    | succ j =>
      have h0 : (attempt i).succeeds = false := by
        simpa using hfail 0 (Nat.succ_pos j)
      have hrest : ∀ j2, j2 < j → (attempt (i + 1 + j2)).succeeds = false := by
        intro j2 hj2
        have e : i + 1 + j2 = i + (j2 + 1) := by omega
        rw [e]
        exact hfail (j2 + 1) (by omega)
      have hsucc' : attempt (i + 1 + j) = .response 200 body := by
        have e : i + 1 + j = i + (j + 1) := by omega
        rw [e]
        exact hsucc
      have hrec := ih j (i + 1) body (by omega) hrest hsucc'
      cases ho : attempt i with
      | response status body2 =>
        have hs : ¬status = 200 := by
          intro hEq
          rw [ho, hEq] at h0
          simp [AttemptOutcome.succeeds] at h0
        simp [fetchFrom, ho, hs, hrec, Nat.succ_mul, Nat.add_comm]
      | sslError => simp [fetchFrom, ho, hrec, Nat.succ_mul, Nat.add_comm]
      | exn => simp [fetchFrom, ho, hrec, Nat.succ_mul, Nat.add_comm]

/-! ### Sample inputs used by the witness theorems -/

/-- A well-formed feed entry. -/
def sampleEntry : Entry :=
  { title := some "Budget tabled in parliament",
    link := some "https://example.com/budget",
    summary := some "The national budget was tabled.",
    description := none }

/-- A network oracle where exactly one source succeeds, with one entry. -/
def oneFeed : String → Option Feed :=
  fun url =>
    if url = "https://www.kbc.co.ke/feed/" then some { entries := [sampleEntry] }
    else none

/-- A network oracle where every fetch fails. -/
def noFeeds : String → Option Feed := fun _ => none

/-- An AI oracle that always answers. -/
def genOk : String → Except String (Option String) :=
  fun _ => .ok (some "Analysis text.")

/-- An AI oracle that always raises. -/
def genFail : String → Except String (Option String) :=
  fun _ => .error "quota exceeded"

/-- A network-attempt oracle that always raises a transport error. -/
def allAttemptsFail : Nat → AttemptOutcome := fun _ => .exn

/-! ### Claims -/

/-- C1: when at least one source yields live entries, the batch is the
first at-most-5 articles of each successful source, in source-declaration
order then entry order, truncated to 15; its length is
`min 15 (Σ min 5 |entries_i|)` over the successful sources, and failed
sources contribute nothing (they are absent from `sourceEntries`). -/
theorem c1_live_aggregation_bounds (fetchOf : String → Option Feed)
    (cache : CacheFile) (gen : String → Except String (Option String))
    (now : String)
    (h : ∃ url ∈ feeds, ∃ f, fetchOf url = some f ∧ f.entries ≠ []) :
    ∃ out, analyze_government_news fetchOf cache gen now = .ok out ∧
      out.batch =
        ((sourceEntries fetchOf).flatMap (fun es => (es.take 5).map mkArticle)).take 15 ∧
      out.batch.length =
        min 15 (((sourceEntries fetchOf).map (fun es => min 5 es.length)).sum) := by
  obtain ⟨url, hmem, f, hf, hent⟩ := h
  have h1 : f ∈ feeds.filterMap fetchOf := List.mem_filterMap.mpr ⟨url, hmem, hf⟩
  have h2 : f.entries ∈ sourceEntries fetchOf := List.mem_map_of_mem Feed.entries h1
  have hne : collectLive fetchOf ≠ [] := by
    rw [collectLive_eq]
    cases hE : f.entries with
    | nil => exact absurd hE hent
    | cons e t =>
      have he5 : mkArticle e ∈ (f.entries.take 5).map mkArticle := by
        rw [hE]
        exact List.mem_map_of_mem mkArticle (by simp [List.take_cons])
      exact List.ne_nil_of_mem (List.mem_flatMap.mpr ⟨f.entries, h2, he5⟩)
  have hne15 : (collectLive fetchOf).take 15 ≠ [] := by
    simp [List.take_eq_nil_iff, hne]
  refine ⟨{ batch := (collectLive fetchOf).take 15,
            cacheAfter := .valid ((collectLive fetchOf).take 15),
            response := { status := "success", timestamp := now,
                          analyses := runAnalyses gen ((collectLive fetchOf).take 15) } },
          ?_, ?_, ?_⟩
  · rw [analyze_of_cacheStep_ok fetchOf cache gen now _ (cacheStep_of_ne_nil cache hne15),
      withFallback_of_ne_nil hne15]
  · rw [collectLive_eq]
  · rw [List.length_take, collectLive_length]

/-- C1 witness: one source succeeds with a single entry; the batch is that
one article. -/
theorem c1_witness :
    ∃ out, analyze_government_news oneFeed CacheFile.absent genOk "t" = .ok out ∧
      out.batch =
        ((sourceEntries oneFeed).flatMap (fun es => (es.take 5).map mkArticle)).take 15 ∧
      out.batch.length =
        min 15 (((sourceEntries oneFeed).map (fun es => min 5 es.length)).sum) :=
  c1_live_aggregation_bounds oneFeed CacheFile.absent genOk "t"
    ⟨"https://www.kbc.co.ke/feed/", by decide,
      { entries := [sampleEntry] }, rfl, by decide⟩

/-- C2: if live aggregation yields zero articles and no cache record
exists, the batch is exactly the fixed placeholder article; and in every
returning case the batch is non-empty. -/
theorem c2_placeholder_when_all_fail (fetchOf : String → Option Feed)
    (gen : String → Except String (Option String)) (now : String)
    (h : collectLive fetchOf = []) :
    analyze_government_news fetchOf CacheFile.absent gen now =
      .ok { batch := [fallbackArticle],
            cacheAfter := .valid [fallbackArticle],
            response := { status := "success", timestamp := now,
                          analyses := [analyzeOne gen fallbackArticle] } } ∧
    (∀ (fetchOf2 : String → Option Feed) (cache2 : CacheFile) (out : RunResult),
      analyze_government_news fetchOf2 cache2 gen now = .ok out →
        out.batch ≠ []) := by
  constructor
  · have hcs : cacheStep ((collectLive fetchOf).take 15) CacheFile.absent = .ok [] := by
      simp [cacheStep, h]
    rw [analyze_of_cacheStep_ok fetchOf CacheFile.absent gen now [] hcs]
    simp [withFallback, runAnalyses]
  · intro fetchOf2 cache2 out hok
    obtain ⟨a0, -, hout⟩ := analyze_ok_shape _ _ _ _ _ hok
    rw [hout]
    simpa using withFallback_ne_nil a0

/-- C2 witness: with every fetch failing and no cache, the placeholder is
returned. -/
theorem c2_witness :
    analyze_government_news noFeeds CacheFile.absent genOk "t" =
      .ok { batch := [fallbackArticle],
            cacheAfter := .valid [fallbackArticle],
            response := { status := "success", timestamp := "t",
                          analyses := [analyzeOne genOk fallbackArticle] } } :=
  (c2_placeholder_when_all_fail noFeeds genOk "t" rfl).1

/-- C3 counterexample: with every source failing and a corrupt cache
record, `json.load` raises and the `json.JSONDecodeError` escapes
`analyze_government_news` — contradicting the claim that corruption is
treated as absent and that no exception escapes. -/
theorem c3_counterexample :
    analyze_government_news noFeeds CacheFile.corrupt genOk
      "2026-01-01T00:00:00" = .error PyErr.jsonDecodeError := rfl

/-- C3 amended: a missing cache record is treated as absent, and the call
returns normally in every case except when live aggregation is empty and
the stored cache record is corrupt, in which case the JSON decode error
propagates to the caller. -/
theorem c3_no_raise_unless_corrupt_cache (fetchOf : String → Option Feed)
    (cache : CacheFile) (gen : String → Except String (Option String))
    (now : String) :
    (∃ out, analyze_government_news fetchOf cache gen now = .ok out) ↔
      ¬(collectLive fetchOf = [] ∧ cache = CacheFile.corrupt) := by
  constructor
  · rintro ⟨out, hok⟩ ⟨hempty, hcor⟩
    subst hcor
    have hcs : cacheStep ((collectLive fetchOf).take 15) CacheFile.corrupt =
        .error .jsonDecodeError := by
      simp [cacheStep, hempty]
    unfold analyze_government_news at hok
    rw [hcs] at hok
    exact absurd hok (by simp)
  · intro hn
    by_cases hempty : collectLive fetchOf = []
    · cases cache with
      | corrupt => exact absurd ⟨hempty, rfl⟩ hn
      | absent =>
        exact ⟨_, analyze_of_cacheStep_ok fetchOf CacheFile.absent gen now []
          (by simp [cacheStep, hempty])⟩
      | valid b =>
        exact ⟨_, analyze_of_cacheStep_ok fetchOf (CacheFile.valid b) gen now b
          (by simp [cacheStep, hempty])⟩
    · have hne15 : (collectLive fetchOf).take 15 ≠ [] := by
        simp [List.take_eq_nil_iff, hempty]
      exact ⟨_, analyze_of_cacheStep_ok fetchOf cache gen now _
        (cacheStep_of_ne_nil cache hne15)⟩

/-- C3 amended witness: a missing record is treated as absent and the
call returns normally. -/
theorem c3_witness :
    ∃ out, analyze_government_news noFeeds CacheFile.absent genOk "t" = .ok out :=
  (c3_no_raise_unless_corrupt_cache noFeeds CacheFile.absent genOk "t").mpr
    (by simp)

/-- A four-article cache record, as in the spec scenario. -/
def cachedFour : List Article :=
  [{ title := "T1", link := "L1", summary := "S1" },
   { title := "T2", link := "L2", summary := "S2" },
   { title := "T3", link := "L3", summary := "S3" },
   { title := "T4", link := "L4", summary := "S4" }]

/-- The run result when everything fails and no cache exists. -/
def outPlaceholder : RunResult :=
  { batch := [fallbackArticle],
    cacheAfter := .valid [fallbackArticle],
    response := { status := "success", timestamp := "t",
                  analyses := [analyzeOne genOk fallbackArticle] } }

/-- The run result when only the one-entry source succeeds. -/
def outLive : RunResult :=
  { batch := [mkArticle sampleEntry],
    cacheAfter := .valid [mkArticle sampleEntry],
    response := { status := "success", timestamp := "t",
                  analyses := [analyzeOne genOk (mkArticle sampleEntry)] } }

/-- An entry with every field absent. -/
def emptyEntry : Entry :=
  { title := none, link := none, summary := none, description := none }

/-- C4: when every source fails and a non-empty cache record exists, the
returned batch is exactly the cached batch, order and content unchanged. -/
theorem c4_cached_batch_returned (fetchOf : String → Option Feed)
    (gen : String → Except String (Option String)) (now : String)
    (b : List Article) (h1 : collectLive fetchOf = []) (h2 : b ≠ []) :
    ∃ out, analyze_government_news fetchOf (CacheFile.valid b) gen now = .ok out ∧
      out.batch = b := by
  have hcs : cacheStep ((collectLive fetchOf).take 15) (CacheFile.valid b) = .ok b := by
    simp [cacheStep, h1]
  exact ⟨_, analyze_of_cacheStep_ok fetchOf (CacheFile.valid b) gen now b hcs,
    withFallback_of_ne_nil h2⟩

/-- C4 witness: all sources unreachable, cache holds 4 articles; those 4
come back unchanged. -/
theorem c4_witness :
    ∃ out, analyze_government_news noFeeds (CacheFile.valid cachedFour) genOk "t" =
      .ok out ∧ out.batch = cachedFour :=
  c4_cached_batch_returned noFeeds genOk "t" cachedFour rfl (by decide)

/-- C5: whenever the call returns, the cache file written equals the
returned batch, and that batch is non-empty — the persisted cache always
reflects the most recent non-empty result. -/
theorem c5_cache_reflects_batch (fetchOf : String → Option Feed)
    (cache : CacheFile) (gen : String → Except String (Option String))
    (now : String) (out : RunResult)
    (h : analyze_government_news fetchOf cache gen now = .ok out) :
    out.cacheAfter = CacheFile.valid out.batch ∧ out.batch ≠ [] := by
  obtain ⟨a0, -, hout⟩ := analyze_ok_shape _ _ _ _ _ h
  subst hout
  exact ⟨rfl, withFallback_ne_nil a0⟩

/-- C5 witness: in the total-failure run the written cache equals the
returned placeholder batch. -/
theorem c5_witness :
    outPlaceholder.cacheAfter = CacheFile.valid outPlaceholder.batch ∧
      outPlaceholder.batch ≠ [] :=
  c5_cache_reflects_batch noFeeds CacheFile.absent genOk "t" outPlaceholder rfl

/-- C6: on persistent failure `fetch_feed` makes exactly `retries`
attempts, sleeps `delay` after each failed attempt (so `retries * delay`
in total, which includes the wait between consecutive attempts), and
returns `none`; on the first HTTP 200 at attempt `k` it stops after
`k + 1` attempts and returns the parsed response content. -/
theorem c6_fetch_retry_behavior (attempt : Nat → AttemptOutcome)
    (retries delay : Nat) (hr : 1 ≤ retries) :
    ((∀ i, i < retries → (attempt i).succeeds = false) →
      fetch_feed attempt retries delay = (none, retries * delay, retries)) ∧
    (∀ k body, k < retries → (∀ j, j < k → (attempt j).succeeds = false) →
      attempt k = .response 200 body →
      fetch_feed attempt retries delay = (some body, k * delay, k + 1)) := by
  constructor
  · intro h
    exact fetchFrom_persistent attempt delay retries 0
      (fun j hj => by simpa using h j hj)
  · intro k body hk hfail hsucc
    exact fetchFrom_first_success attempt delay retries k 0 body hk
      (fun j hj => by simpa using hfail j hj) (by simpa using hsucc)

/-- C6 witness: with the default `retries = 3`, `delay = 5` and every
attempt raising, `fetch_feed` makes 3 attempts, sleeps 15 seconds in
total and returns `none`. -/
theorem c6_witness : fetch_feed allAttemptsFail 3 5 = (none, 3 * 5, 3) :=
  (c6_fetch_retry_behavior allAttemptsFail 3 5 (by decide)).1 (by decide)

/-- C7: an absent title becomes "Untitled", an absent link "No link", an
absent summary falls back to the description field and then to
"No summary available."; and every article gathered from the live feeds
is built by `mkArticle`, so all three fields are populated. -/
theorem c7_field_placeholders :
    (∀ entry : Entry, entry.title = none → (mkArticle entry).title = "Untitled") ∧
    (∀ entry : Entry, entry.link = none → (mkArticle entry).link = "No link") ∧
    (∀ entry : Entry, entry.summary = none →
      (mkArticle entry).summary = entry.description.getD "No summary available.") ∧
    (∀ entry : Entry, entry.summary = none → entry.description = none →
      (mkArticle entry).summary = "No summary available.") ∧
    (∀ fetchOf : String → Option Feed, ∀ a ∈ collectLive fetchOf,
      ∃ entry, a = mkArticle entry) := by
  refine ⟨?_, ?_, ?_, ?_, ?_⟩
  · intro entry h; simp [mkArticle, h]
  · intro entry h; simp [mkArticle, h]
  · intro entry h; simp [mkArticle, h]
  · intro entry h hd; simp [mkArticle, h, hd]
  · intro fetchOf a ha
    rw [collectLive_eq] at ha
    obtain ⟨es, -, ha2⟩ := List.mem_flatMap.mp ha
    obtain ⟨e, -, rfl⟩ := List.mem_map.mp ha2
    exact ⟨e, rfl⟩

/-- C7 witness: the all-absent entry gets the "Untitled" placeholder. -/
theorem c7_witness : (mkArticle emptyEntry).title = "Untitled" :=
  c7_field_placeholders.1 emptyEntry rfl

/-- C8: running the pipeline again with the same live data and the cache
file left by the first run reproduces the first run exactly — in
particular the persisted cache content is identical after each call, with
no accumulation or duplication. -/
theorem c8_cache_idempotent (fetchOf : String → Option Feed)
    (cache : CacheFile) (gen : String → Except String (Option String))
    (now : String) (out1 : RunResult)
    (h : analyze_government_news fetchOf cache gen now = .ok out1) :
    analyze_government_news fetchOf out1.cacheAfter gen now = .ok out1 := by
  obtain ⟨a0, hcs, hout⟩ := analyze_ok_shape _ _ _ _ _ h
  subst hout
  show analyze_government_news fetchOf (CacheFile.valid (withFallback a0)) gen now = _
  by_cases hempty : ((collectLive fetchOf).take 15).isEmpty
  · have hcs2 : cacheStep ((collectLive fetchOf).take 15)
        (CacheFile.valid (withFallback a0)) = .ok (withFallback a0) := by
      simp [cacheStep, hempty]
    rw [analyze_of_cacheStep_ok fetchOf (CacheFile.valid (withFallback a0)) gen now
      (withFallback a0) hcs2, withFallback_of_ne_nil (withFallback_ne_nil a0)]
  · have hne : (collectLive fetchOf).take 15 ≠ [] := by
      simpa [List.isEmpty_iff] using hempty
    have ha0 : (collectLive fetchOf).take 15 = a0 :=
      Except.ok.inj ((cacheStep_of_ne_nil cache hne).symm.trans hcs)
    have hcs2 : cacheStep ((collectLive fetchOf).take 15)
        (CacheFile.valid (withFallback a0)) = .ok a0 := by
      rw [cacheStep_of_ne_nil _ hne, ha0]
    rw [analyze_of_cacheStep_ok fetchOf (CacheFile.valid (withFallback a0)) gen now
      a0 hcs2]

/-- C8 witness: a second run on the cache left by a live run returns the
same result and leaves the same cache. -/
theorem c8_witness :
    analyze_government_news oneFeed outLive.cacheAfter genOk "t" = .ok outLive :=
  c8_cache_idempotent oneFeed CacheFile.absent genOk "t" outLive rfl

/-- C9: the analysis stage yields exactly one item per article, in batch
order, preserving title and link; an AI error on an article becomes that
item's error text instead of aborting the batch. -/
theorem c9_per_article_analysis (gen : String → Except String (Option String))
    (articles : List Article) :
    (runAnalyses gen articles).length = articles.length ∧
    (∀ i : Nat, (runAnalyses gen articles)[i]? =
      (articles[i]?).map (analyzeOne gen)) ∧
    (∀ art : Article, (analyzeOne gen art).title = art.title ∧
      (analyzeOne gen art).source = art.link) ∧
    (∀ (art : Article) (e : String), gen (promptFor art) = .error e →
      (analyzeOne gen art).analysis = "⚠️ AI generation error: " ++ e) := by
  refine ⟨?_, ?_, ?_, ?_⟩
  · simp [runAnalyses_eq_map]
  · intro i; simp [runAnalyses_eq_map, List.getElem?_map]
  · intro art
    unfold analyzeOne
    cases gen (promptFor art) <;> simp
  · intro art e h; simp [analyzeOne, h]

/-- C9 witness: an AI failure on the placeholder article surfaces as
per-item error text. -/
theorem c9_witness :
    (analyzeOne genFail fallbackArticle).analysis =
      "⚠️ AI generation error: " ++ "quota exceeded" :=
  (c9_per_article_analysis genFail [fallbackArticle]).2.2.2 fallbackArticle
    "quota exceeded" rfl

/-- C10: whenever `analyze_government_news` returns, its dict has status
exactly "success" and a non-empty analyses list — it never reports an
error status, even when every source failed. -/
theorem c10_status_always_success (fetchOf : String → Option Feed)
    (cache : CacheFile) (gen : String → Except String (Option String))
    (now : String) (out : RunResult)
    (h : analyze_government_news fetchOf cache gen now = .ok out) :
    out.response.status = "success" ∧ out.response.analyses ≠ [] := by
  obtain ⟨a0, -, hout⟩ := analyze_ok_shape _ _ _ _ _ h
  subst hout
  refine ⟨rfl, ?_⟩
  show runAnalyses gen (withFallback a0) ≠ []
  rw [runAnalyses_eq_map]
  simpa [List.map_eq_nil_iff] using withFallback_ne_nil a0

/-- C10 witness: even the total-failure run reports status "success" with
one analysis. -/
theorem c10_witness :
    outPlaceholder.response.status = "success" ∧
      outPlaceholder.response.analyses ≠ [] :=
  c10_status_always_success noFeeds CacheFile.absent genOk "t" outPlaceholder rfl

end OppositionKenya
